import Mathlib

/-!
Verification of the AT-Protocol CLI script (`src/script.py`).

The script's logic is embedded shallowly:
* Python `str` values handled character-wise become `List Char`;
* loosely-typed JSON-like payloads become the inductive `JVal`
  (a tagged union of null/bool/number/string/array/mapping, matching the
  shapes that `json.load` and the SDK's `safe_to_dict` conversion produce);
* functions that can raise become `Except String` computations, a caught
  exception at a call site becoming a `match` on the error case;
* the external transport (the `atproto` SDK client) becomes an explicit
  oracle record `Env` of the read capabilities the script invokes.
-/

set_option autoImplicit false

namespace ATProto

/-- A loosely-typed JSON-like value, the shape of the payloads the script's
extractors receive (`record.value` after `safe_to_dict`). Mappings are
association lists with the usual first-match lookup. -/
inductive JVal where
  | null : JVal
  | bool : Bool → JVal
  | num : Int → JVal
  | str : String → JVal
  | arr : List JVal → JVal
  | obj : List (String × JVal) → JVal
  deriving Inhabited

/-- Python truthiness (`bool(v)`) on `JVal` values: `None`, `False`, `0`,
empty strings and empty containers are falsy. -/
def pyTruthy : JVal → Bool
  | .null => false
  | .bool b => b
  | .num n => n != 0
  | .str s => s ≠ ""
  | .arr l => !l.isEmpty
  | .obj l => !l.isEmpty

/-- First-match lookup in an association list (Python dict access). -/
def lookupKV : List (String × JVal) → String → Option JVal
  | [], _ => none
  | (k', v) :: rest, k => if k' = k then some v else lookupKV rest k

/-- `k in v and v[k]`-style access: `some` exactly when `v` is a mapping
holding key `k`. On every non-mapping value the key test fails. -/
def jget : JVal → String → Option JVal
  | .obj kvs, k => lookupKV kvs k
  | _, _ => none

/-- `v.isObj` : whether `v` is a mapping (`isinstance(v, dict)`). -/
def JVal.isObj : JVal → Bool
  | .obj _ => true
  | _ => false

/-- `k in rv and rv[k]` as the script writes its text checks: the value at
`k` when it is present and truthy, `none` otherwise. -/
def truthyGet (rv : JVal) (k : String) : Option JVal :=
  match jget rv k with
  | some t => if pyTruthy t then some t else none
  | none => none

/-- First-of-two on optional results, mirroring the script's sequential
`if ...: return` fallthrough chains. -/
def jor (a b : Option JVal) : Option JVal :=
  match a with
  | some v => some v
  | none => b

/-- `extract_text_from_record` (src/script.py lines 90-114): tries, in
order, top-level `text`; then — when `record` is a mapping — `record.text`,
`record.value.text`, `record.value.content` (the `value` checks only when
`record.value` is a mapping); then — when top-level `value` is a mapping —
`value.text`, `value.content`. Each check fires only on a present and
truthy value; if none fires the sentinel string is returned. -/
def extract_text_from_record (record_value : JVal) : JVal :=
  let fromRec : Option JVal :=
    match jget record_value "record" with
    | some rec =>
      if rec.isObj then
        let fromVal : Option JVal :=
          match jget rec "value" with
          | some val =>
            if val.isObj then jor (truthyGet val "text") (truthyGet val "content")
            else none
          | none => none
        jor (truthyGet rec "text") fromVal
      else none
    | none => none
  let fromTopVal : Option JVal :=
    match jget record_value "value" with
    | some val =>
      if val.isObj then jor (truthyGet val "text") (truthyGet val "content")
      else none
    | none => none
  match jor (truthyGet record_value "text") (jor fromRec fromTopVal) with
  | some t => t
  | none => .str "No text content"

/-- Key-path lookup: follows a chain of mapping keys, failing as soon as an
intermediate value is not a mapping holding the key. -/
def jgetPath (v : JVal) : List String → Option JVal
  | [] => some v
  | k :: ks =>
    match jget v k with
    | some w => jgetPath w ks
    | none => none

/-- The fixed priority order of key paths the specification gives for text
extraction. -/
def spec_text_paths : List (List String) :=
  [["text"], ["record", "text"], ["record", "value", "text"],
   ["record", "value", "content"], ["value", "text"], ["value", "content"]]

/-- One attempted key path: its value when the whole path resolves and the
value is non-empty (truthy), nothing otherwise. -/
def tryPath (rv : JVal) (p : List String) : Option JVal :=
  match jgetPath rv p with
  | some v => if pyTruthy v then some v else none
  | none => none

/-- Text extraction as the specification words it (spec §4.3): attempt the
key paths of `spec_text_paths` in order; the first non-empty (truthy) match
wins; otherwise the defined sentinel. Stated separately from
`extract_text_from_record` so the two can be compared. -/
def spec_extract_text (rv : JVal) : JVal :=
  match spec_text_paths.filterMap (tryPath rv) with
  | t :: _ => t
  | [] => .str "No text content"

/-- `dict.get(k, default)` (Python `img.get('alt', 'No description')`). -/
def jgetD (v : JVal) (k : String) (d : JVal) : JVal :=
  (jget v k).getD d

/-- One entry of the list `extract_images_from_record` builds:
`{'alt': ..., 'ref': ...}`, where `ref` is `none` when the script stores
Python `None` there. -/
structure ImageEntry where
  alt : JVal
  ref : Option JVal
  deriving Inhabited

/-- One loop step over an `embed.images[]` element (src/script.py lines
71-79): the element is skipped unless it holds an `image` mapping with a
`ref` key; when it does, an entry is appended whose `ref` is the mapping's
`$link` value when `ref` is itself a mapping, and absent otherwise. A
non-mapping element raises (`img.get` on a non-dict). -/
def processEmbedImg (img : JVal) : Except String (Option ImageEntry) :=
  match img with
  | .obj _ =>
    let alt := jgetD img "alt" (.str "No description")
    match jget img "image" with
    | some imgField =>
      match jget imgField "ref" with
      | some image_ref =>
        let ref_url : Option JVal :=
          match image_ref with
          | .obj _ => jget image_ref "$link"
          | _ => none
        .ok (some { alt := alt, ref := ref_url })
      | none => .ok none
    | none => .ok none
  | _ => .error "AttributeError: img.get on a non-mapping element"

/-- One loop step over a `media[]` element (src/script.py lines 82-87): an
entry is appended exactly when the element's `type` equals the string
`image` and its `url` is present and truthy. A non-mapping element raises. -/
def processMediaItem (m : JVal) : Except String (Option ImageEntry) :=
  match m with
  | .obj _ =>
    let ty := jget m "type"
    let url := jget m "url"
    if (match ty with | some (.str s) => s = "image" | _ => false)
        && pyTruthy (url.getD .null) then
      .ok (some { alt := jgetD m "alt" (.str "No description"), ref := url })
    else .ok none
  | _ => .error "AttributeError: m.get on a non-mapping element"

/-- Runs a per-element extractor over a list, keeping the produced entries
in order; the first raising element aborts the whole traversal, as a Python
`for` loop would. -/
def collectEntries (f : JVal → Except String (Option ImageEntry)) :
    List JVal → Except String (List ImageEntry)
  | [] => .ok []
  | v :: rest =>
    match f v with
    | .error e => .error e
    | .ok r =>
      match collectEntries f rest with
      | .error e => .error e
      | .ok rs =>
        match r with
        | some entry => .ok (entry :: rs)
        | none => .ok rs

/-- The `embed` pass of `extract_images_from_record` (src/script.py lines
67-79): when `embed` is a mapping holding `images`, each element of that
list is processed by `processEmbedImg`. An `embed.images` value that is
not a list makes the Python `for` loop either raise or traverse a
non-attachment iterable; that case is modelled as an error. -/
def embedPartOf (record_value : JVal) : Except String (List ImageEntry) :=
  match jget record_value "embed" with
  | some embed =>
    match jget embed "images" with
    | some (.arr imgs) => collectEntries processEmbedImg imgs
    | some _ => .error "embed.images is not a list"
    | none => .ok []
  | none => .ok []

/-- The `media` pass of `extract_images_from_record` (src/script.py lines
80-87): when `media` is present and a list, each element is processed by
`processMediaItem`. -/
def mediaPartOf (record_value : JVal) : Except String (List ImageEntry) :=
  match jget record_value "media" with
  | some (.arr ms) => collectEntries processMediaItem ms
  | _ => .ok []

/-- `extract_images_from_record` (src/script.py lines 63-88): on a mapping,
the `embed` pass followed by the `media` pass, their entries appended in
order; on a non-mapping input the empty list. -/
def extract_images_from_record (record_value : JVal) : Except String (List ImageEntry) :=
  match record_value with
  | .obj _ =>
    match embedPartOf record_value with
    | .error e => .error e
    | .ok es =>
      match mediaPartOf record_value with
      | .error e => .error e
      | .ok ms => .ok (es ++ ms)
  | _ => .ok []

/-- The reply-link extraction inlined in `process_post` (src/script.py
lines 282-293), named per spec §4.3: the reply mapping is the top-level
`reply` value when that key is present, else `record.reply` when `record`
is a mapping holding `reply`; from it, `parent.uri` and `root.uri` are
each taken independently, requiring `parent` (resp. `root`) to be a
mapping holding `uri`. -/
def extract_reply_links (record_value : JVal) : Option JVal × Option JVal :=
  match record_value with
  | .obj _ =>
    let reply_info : Option JVal :=
      match jget record_value "reply" with
      | some r => some r
      | none =>
        match jget record_value "record" with
        | some rec => jget rec "reply"
        | none => none
    match reply_info with
    | some ri =>
      let parent_uri : Option JVal :=
        match jget ri "parent" with
        | some par => jget par "uri"
        | none => none
      let root_uri : Option JVal :=
        match jget ri "root" with
        | some rt => jget rt "uri"
        | none => none
      (parent_uri, root_uri)
    | none => (none, none)
  | _ => (none, none)

/-- Python `s.split(sep)` for a one-character separator: always returns at
least one (possibly empty) piece, and `n` separators yield `n + 1` pieces. -/
def pySplit (sep : Char) : List Char → List (List Char)
  | [] => [[]]
  | c :: cs =>
    if c = sep then [] :: pySplit sep cs
    else
      match pySplit sep cs with
      | [] => [[c]]
      | p :: ps => (c :: p) :: ps

/-- The fixed scheme marker `at://`. -/
def atScheme : List Char := ['a', 't', ':', '/', '/']

/-- `parse_at_uri` (src/script.py lines 6-20): requires the `at://` scheme
marker, splits the remainder on `/`, requires at least three pieces, and
returns the first and third (`did`, `rkey`). Raised `ValueError`s become
`Except.error` with the script's messages. -/
def parse_at_uri (uri : List Char) : Except String (List Char × List Char) :=
  if atScheme.isPrefixOf uri then
    let remainder := uri.drop atScheme.length
    let parts := pySplit '/' remainder
    if parts.length < 3 then .error "AT URI does not have enough parts"
    else .ok (parts.getD 0 [], parts.getD 2 [])
  else .error "Invalid AT URI format"

/-- The literal head of the web-URL pattern, `https://bsky.app/profile/`. -/
def bskyUrlHead : List Char := "https://bsky.app/profile/".data

/-- The literal middle of the web-URL pattern, `/post/`. -/
def postMarker : List Char := "/post/".data

/-- The literal head of a decentralized identifier, `did:`. -/
def didMarker : List Char := ['d', 'i', 'd', ':']

/-- The anchored match of the regular expression
`https://bsky\.app/profile/([^/]+)/post/([^/]+)` (src/script.py line 27,
Python `re.match`): the literal head, a non-empty run of non-`/` characters
(group 1 — greedy, hence maximal), the literal `/post/`, and a non-empty
run of non-`/` characters (group 2); anything may follow. Returns the two
captured groups. -/
def matchBskyUrl (url : List Char) : Option (List Char × List Char) :=
  if bskyUrlHead.isPrefixOf url then
    let rest := url.drop bskyUrlHead.length
    let handleSeg := rest.takeWhile (fun c => c ≠ '/')
    if handleSeg.isEmpty then none
    else
      let rest2 := rest.dropWhile (fun c => c ≠ '/')
      if postMarker.isPrefixOf rest2 then
        let rest3 := rest2.drop postMarker.length
        let rkeySeg := rest3.takeWhile (fun c => c ≠ '/')
        if rkeySeg.isEmpty then none
        else some (handleSeg, rkeySeg)
      else none
  else none

/-- Assembly of the result AT URI,
`f"at://{did}/app.bsky.feed.post/{rkey}"` (src/script.py line 47). -/
def mkAtUri (did rkey : List Char) : List Char :=
  atScheme ++ did ++ "/app.bsky.feed.post/".data ++ rkey

/-- `convert_bluesky_url` (src/script.py lines 22-48). The SDK's
`resolve_handle` capability is the oracle `resolve` (`none` = the call
raised). Alongside the produced AT URI the model returns the list of
handles passed to `resolve`, so that theorems can speak about how often
identity resolution was invoked. A failed pattern match and a failed
resolution raise (`Except.error`). -/
def convert_bluesky_url (url : List Char)
    (resolve : List Char → Option (List Char)) :
    Except String (List Char × List (List Char)) :=
  match matchBskyUrl url with
  | none => .error "Invalid Bluesky URL format"
  | some (handle_or_did, rkey) =>
    if didMarker.isPrefixOf handle_or_did then
      .ok (mkAtUri handle_or_did rkey, [])
    else
      match resolve handle_or_did with
      | none => .error "Error resolving handle"
      | some did => .ok (mkAtUri did rkey, [handle_or_did])

/-- Python substring containment (`pat in s`): some suffix of `s` starts
with `pat`. -/
def containsSeq (pat : List Char) : List Char → Bool
  | [] => pat.isEmpty
  | c :: cs => pat.isPrefixOf (c :: cs) || containsSeq pat cs

/-- `is_at_uri` (src/script.py lines 50-52): the `at://` marker at the
head and the literal `/app.bsky.feed.post/` somewhere inside. -/
def is_at_uri (uri : List Char) : Bool :=
  atScheme.isPrefixOf uri && containsSeq "/app.bsky.feed.post/".data uri

/-- `is_bluesky_url` (src/script.py lines 54-57): whether the profile/post
pattern matches. -/
def is_bluesky_url (url : List Char) : Bool :=
  (matchBskyUrl url).isSome

mutual

/-- Structural equality of `JVal` values, the shape Python's `==` takes on
these JSON-like payloads (used by the loop's `root_uri != parent_uri`
guard). -/
def jvalBeq : JVal → JVal → Bool
  | .null, .null => true
  | .bool a, .bool b => a == b
  | .num a, .num b => a == b
  | .str a, .str b => a == b
  | .arr a, .arr b => jvalListBeq a b
  | .obj a, .obj b => jvalKVBeq a b
  | _, _ => false

/-- Element-wise equality of `JVal` lists. -/
def jvalListBeq : List JVal → List JVal → Bool
  | [], [] => true
  | a :: as, b :: bs => jvalBeq a b && jvalListBeq as bs
  | _, _ => false

/-- Entry-wise equality of `JVal` association lists. -/
def jvalKVBeq : List (String × JVal) → List (String × JVal) → Bool
  | [], [] => true
  | (k, v) :: as, (k2, v2) :: bs => k == k2 && jvalBeq v v2 && jvalKVBeq as bs
  | _, _ => false

end

/-- Equality on optional `JVal`s: Python's `==` with `None` equal only to
`None`. -/
def optJBeq : Option JVal → Option JVal → Bool
  | none, none => true
  | some a, some b => jvalBeq a b
  | _, _ => false

/-- Truthiness of an optional value, Python `None` being falsy. -/
def pyTruthyO : Option JVal → Bool
  | none => false
  | some v => pyTruthy v

/-- The navigation-relevant shape of a `get_post_thread` response used for
the replies listing: `children` is the `thread.replies` (or
`thread.children`) list when such an attribute exists, each child being
its `post.uri` value when that attribute chain exists. -/
structure RepliesResp where
  children : Option (List (Option JVal))

/-- The read capabilities of the authenticated SDK client that the loop
invokes; `none` models the call (or attribute access) raising.
`threadCtx` is the parent/root fallback taken from `get_post_thread`
(each component `none` when the corresponding attribute chain is absent,
leaving the variable unassigned). -/
structure Env where
  resolve : List Char → Option (List Char)
  getRecord : List Char → List Char → Option JVal
  threadCtx : JVal → Option (Option JVal × Option JVal)
  getReplies : JVal → Option RepliesResp

/-- `parse_at_uri` applied to a dynamically-typed value, as `process_post`
does: on a non-string, `uri.startswith` raises. -/
def parse_at_uriJ (v : JVal) : Except String (List Char × List Char) :=
  match v with
  | .str s => parse_at_uri s.data
  | _ => .error "AttributeError: no attribute on a non-string"

/-- Assign-if-attribute-present: the fallback lines
`if hasattr(...): parent_uri = ...` keep the previous value when the
attribute chain is missing. -/
def updateIfSome (old new : Option JVal) : Option JVal :=
  match new with
  | some v => some v
  | none => old

/-- The navigation-relevant behaviour of `process_post` (src/script.py
lines 179-436), returning the `(replies_resp, parent_uri, root_uri)`
triple. A parse failure (lines 191-195) and a record-fetch failure (lines
203-219) are caught inside and yield `(None, None, None)`. On a fetched
`record_value` that is not a mapping, line 247's `record_value.get`
raises uncaught, as does an `extract_images_from_record` error at line
271 (`Except.error`). Reply links come from `extract_reply_links` (lines
282-293); if both are falsy the thread-context fallback (lines 295-312)
assigns whichever attributes the response carries, a raising call being
caught with no assignment. The replies fetch (lines 355-411) catches its
own errors, leaving `replies_resp` as `None`. Terminal printing, the
author lookup, the alternative-text lookup, and the THREAD CONTEXT
display have no effect on the returned triple and are not modelled. -/
def process_post (env : Env) (at_uri : JVal) :
    Except String (Option RepliesResp × Option JVal × Option JVal) :=
  match parse_at_uriJ at_uri with
  | .error _ => .ok (none, none, none)
  | .ok (did, rkey) =>
    match env.getRecord did rkey with
    | none => .ok (none, none, none)
    | some record_value =>
      if record_value.isObj then
        match extract_images_from_record record_value with
        | .error e => .error e
        | .ok _ =>
          let pr := extract_reply_links record_value
          let pr2 :=
            if !pyTruthyO pr.1 && !pyTruthyO pr.2 then
              match env.threadCtx at_uri with
              | none => pr
              | some (tp, tr) => (updateIfSome pr.1 tp, updateIfSome pr.2 tr)
            else pr
          .ok (env.getReplies at_uri, pr2.1, pr2.2)
      else .error "AttributeError: record_value.get on a non-mapping"

/-- The mutable variables of the interactive loop (src/script.py lines
472-475): the current AT URI and the navigation state
`(replies_resp, parent_uri, root_uri)`. -/
structure LoopState where
  at_uri : JVal
  replies_resp : Option RepliesResp
  parent_uri : Option JVal
  root_uri : Option JVal

/-- Outcome of one pass of the interactive loop: quit, or continue with
updated variables. -/
inductive StepResult where
  | quit : StepResult
  | cont : LoopState → StepResult

/-- `s.isdigit()` for ASCII input: non-empty and all digits. -/
def isDigits (s : List Char) : Bool :=
  !s.isEmpty && s.all (fun c => c.isDigit)

/-- `int(s)` on a digit string. -/
def digitsToNat (s : List Char) : Nat :=
  s.foldl (fun n c => n * 10 + (c.toNat - 48)) 0

/-- One pass of the interactive loop (src/script.py lines 507-552).
`choice` is the stripped, lowercased menu input and `user_input` the raw
string read at the `n` prompt. The `elif` chain is mirrored exactly: `q`
quits; `n` takes a verbatim AT URI, else converts a web URL (a conversion
failure is caught, leaving every variable unchanged), else re-prompts on
invalid input; `p` and `r` fire only when their guards (a truthy URI, and
for `r` distinctness from the parent) hold; a digit fires only when a
replies response is held, an out-of-range number or a child without a
`post.uri` chain (caught `AttributeError`) leaving the state unchanged;
anything else re-prompts. Wherever `process_post` is invoked, an
exception escaping it is caught and leaves the state unchanged, while a
returned triple is assigned to the three navigation variables. -/
def mainLoopStep (env : Env) (st : LoopState) (choice : List Char)
    (user_input : List Char) : StepResult :=
  if choice = ['q'] then .quit
  else if choice = ['n'] then
    if is_at_uri user_input then
      match process_post env (.str (String.mk user_input)) with
      | .error _ => .cont st
      | .ok (rr, p, r) => .cont ⟨.str (String.mk user_input), rr, p, r⟩
    else if is_bluesky_url user_input then
      match convert_bluesky_url user_input env.resolve with
      | .error _ => .cont st
      | .ok (uri, _) =>
        match process_post env (.str (String.mk uri)) with
        | .error _ => .cont st
        | .ok (rr, p, r) => .cont ⟨.str (String.mk uri), rr, p, r⟩
    else .cont st
  else if choice = ['p'] && pyTruthyO st.parent_uri then
    match st.parent_uri with
    | some pu =>
      match process_post env pu with
      | .error _ => .cont st
      | .ok (rr, p, r) => .cont ⟨st.at_uri, rr, p, r⟩
    | none => .cont st
  else if choice = ['r'] && (pyTruthyO st.root_uri && !optJBeq st.root_uri st.parent_uri) then
    match st.root_uri with
    | some ru =>
      match process_post env ru with
      | .error _ => .cont st
      | .ok (rr, p, r) => .cont ⟨st.at_uri, rr, p, r⟩
    | none => .cont st
  else if isDigits choice && st.replies_resp.isSome then
    match st.replies_resp with
    | some resp =>
      let children := resp.children.getD []
      let n := digitsToNat choice
      if 1 ≤ n && n - 1 < children.length then
        match children.getD (n - 1) none with
        | none => .cont st
        | some ruri =>
          match process_post env ruri with
          | .error _ => .cont st
          | .ok (rr, p, r) => .cont ⟨st.at_uri, rr, p, r⟩
      else .cont st
    | none => .cont st
  else .cont st

/-- The `embed.images[]` list of a payload, empty when the shape is absent
(observer used to count the attachments a payload carries). -/
def embedImagesOf (rv : JVal) : List JVal :=
  match jget rv "embed" with
  | some embed =>
    match jget embed "images" with
    | some (.arr imgs) => imgs
    | _ => []
  | none => []

/-- The `media[]` list of a payload, empty when absent or not a list. -/
def mediaOf (rv : JVal) : List JVal :=
  match jget rv "media" with
  | some (.arr ms) => ms
  | _ => []

/-- Which `embed.images[]` elements the extractor lists: those carrying an
`image` mapping that holds a `ref` key. -/
def embedImgListed (img : JVal) : Bool :=
  match jget img "image" with
  | some f => (jget f "ref").isSome
  | none => false

/-- Which `media[]` elements the extractor lists: type `image` and a
present, truthy `url`. -/
def mediaItemListed (m : JVal) : Bool :=
  (match jget m "type" with | some (.str s) => s = "image" | _ => false)
    && pyTruthy ((jget m "url").getD .null)

/-- A payload whose only attachment is a `media[]` element typed `image`
but carrying no `url`. -/
def mediaNoUrlPayload : JVal :=
  .obj [("media", .arr [.obj [("type", .str "image"), ("alt", .str "pic")]])]

/-- A payload with one attachment in each shape: an `embed.images[]` entry
whose `ref` is an opaque non-mapping (so its reference is unresolvable),
and a `media[]` entry with a url. -/
def imagesBothShapes : JVal :=
  .obj [("embed", .obj [("images", .arr
          [.obj [("alt", .str "a"), ("image", .obj [("ref", .str "opaque")])]])]),
        ("media", .arr [.obj [("type", .str "image"), ("url", .str "u")]])]

/-- An environment in which every transport call fails. -/
def failingEnv : Env :=
  { resolve := fun _ => none
    getRecord := fun _ _ => none
    threadCtx := fun _ => none
    getReplies := fun _ => none }

/-- An environment whose record fetch succeeds with a plain text post and
whose other calls fail. -/
def textPostEnv : Env :=
  { resolve := fun _ => none
    getRecord := fun _ _ => some (.obj [("text", .str "hi")])
    threadCtx := fun _ => none
    getReplies := fun _ => none }

/-- A loop state that knows a parent, a root and a replies response. -/
def knownNavState : LoopState :=
  { at_uri := .str "at://did:plc:cur/app.bsky.feed.post/1"
    replies_resp := some ⟨some [some (.str "at://did:plc:r/app.bsky.feed.post/2")]⟩
    parent_uri := some (.str "at://did:plc:p/app.bsky.feed.post/3")
    root_uri := some (.str "at://did:plc:rt/app.bsky.feed.post/4") }

/-! ## Lemmas about splitting -/

theorem pySplit_cons (sep c : Char) (cs : List Char) :
    pySplit sep (c :: cs) =
      if c = sep then [] :: pySplit sep cs
      else match pySplit sep cs with
        | [] => [[c]]
        | p :: ps => (c :: p) :: ps := rfl

theorem pySplit_ne_nil (sep : Char) (l : List Char) : pySplit sep l ≠ [] := by
  induction l with
  | nil => simp [pySplit]
  | cons c cs ih =>
    rw [pySplit_cons]
    by_cases h : c = sep
    · simp [h]
    · simp only [if_neg h]
      cases hs : pySplit sep cs with
      | nil => simp
      | cons p ps => simp

theorem pySplit_append_sep (sep : Char) (a r : List Char)
    (h : ∀ c ∈ a, c ≠ sep) :
    pySplit sep (a ++ sep :: r) = a :: pySplit sep r := by
  induction a with
  | nil => simp [pySplit]
  | cons c cs ih =>
    have hc : c ≠ sep := h c (by simp)
    have ih' := ih (fun x hx => h x (by simp [hx]))
    simp only [List.cons_append]
    rw [pySplit_cons, if_neg hc, ih']

theorem pySplit_of_noSep (sep : Char) (a : List Char)
    (h : ∀ c ∈ a, c ≠ sep) :
    pySplit sep a = [a] := by
  induction a with
  | nil => rfl
  | cons c cs ih =>
    have hc : c ≠ sep := h c (by simp)
    have ih' := ih (fun x hx => h x (by simp [hx]))
    rw [pySplit_cons, if_neg hc, ih']

theorem pySplit_three (id coll key : List Char)
    (hid : ∀ c ∈ id, c ≠ '/') (hcoll : ∀ c ∈ coll, c ≠ '/')
    (hkey : ∀ c ∈ key, c ≠ '/') :
    pySplit '/' (id ++ '/' :: (coll ++ '/' :: key)) = [id, coll, key] := by
  rw [pySplit_append_sep '/' id _ hid, pySplit_append_sep '/' coll _ hcoll,
    pySplit_of_noSep '/' key hkey]

theorem length_pySplit_pos (sep : Char) (l : List Char) :
    1 ≤ (pySplit sep l).length := by
  cases hs : pySplit sep l with
  | nil => exact absurd hs (pySplit_ne_nil sep l)
  | cons p ps => simp

theorem length_pySplit_append_sep (sep : Char) (a r : List Char) :
    1 + (pySplit sep r).length ≤ (pySplit sep (a ++ sep :: r)).length := by
  induction a with
  | nil => simp [pySplit, Nat.add_comm]
  | cons c cs ih =>
    simp only [List.cons_append]
    rw [pySplit_cons]
    by_cases h : c = sep
    · rw [if_pos h]
      have hlen := length_pySplit_pos sep (cs ++ sep :: r)
      have : 1 + (pySplit sep r).length ≤ (pySplit sep (cs ++ sep :: r)).length := ih
      simp only [List.length_cons]
      omega
    · rw [if_neg h]
      cases hs : pySplit sep (cs ++ sep :: r) with
      | nil => exact absurd hs (pySplit_ne_nil sep _)
      | cons p ps =>
        rw [hs] at ih
        simpa using ih

/-! ## C2 and C3: the identifier parser -/

/-- C2: for every well-formed input `at://<id>/<collection>/<key>` — the
scheme marker followed by three `/`-free segments — `parse_at_uri` returns
the pair `(id, key)` character-for-character; being a total `Except`
computation, it raises nothing. -/
theorem parse_at_uri_wellFormed (id coll key : List Char)
    (hid : '/' ∉ id) (hcoll : '/' ∉ coll) (hkey : '/' ∉ key) :
    parse_at_uri (atScheme ++ id ++ '/' :: (coll ++ '/' :: key)) = .ok (id, key) := by
  have hid' : ∀ c ∈ id, c ≠ '/' := fun c hc he => hid (he ▸ hc)
  have hcoll' : ∀ c ∈ coll, c ≠ '/' := fun c hc he => hcoll (he ▸ hc)
  have hkey' : ∀ c ∈ key, c ≠ '/' := fun c hc he => hkey (he ▸ hc)
  unfold parse_at_uri
  rw [List.append_assoc]
  rw [if_pos (List.isPrefixOf_iff_prefix.mpr (List.prefix_append _ _))]
  simp only [List.drop_left]
  rw [pySplit_three id coll key hid' hcoll' hkey']
  rfl

/-- Witness for C2 at a concrete well-formed URI. -/
theorem parse_at_uri_wellFormed_witness :
    parse_at_uri (atScheme ++ "did:plc:abc".data ++ '/' ::
        ("app.bsky.feed.post".data ++ '/' :: "3k2a".data))
      = .ok ("did:plc:abc".data, "3k2a".data) :=
  parse_at_uri_wellFormed "did:plc:abc".data "app.bsky.feed.post".data
    "3k2a".data (by decide) (by decide) (by decide)

/-- C3: an input without the scheme marker, or with fewer than three
`/`-separated pieces after it, makes `parse_at_uri` signal an error
(the spec's `MalformedIdentifier`); the `Except` result carries no
partial value. -/
theorem parse_at_uri_malformed (uri : List Char)
    (h : atScheme.isPrefixOf uri = false
       ∨ (pySplit '/' (uri.drop atScheme.length)).length < 3) :
    ∃ msg, parse_at_uri uri = .error msg := by
  unfold parse_at_uri
  rcases h with h | h
  · rw [if_neg (by simp [h])]
    exact ⟨_, rfl⟩
  · by_cases hp : atScheme.isPrefixOf uri
    · rw [if_pos hp, if_pos h]
      exact ⟨_, rfl⟩
    · rw [if_neg hp]
      exact ⟨_, rfl⟩

/-- Witness for C3: `at://a/b` has the marker but only two pieces. -/
theorem parse_at_uri_malformed_witness :
    ∃ msg, parse_at_uri "at://a/b".data = .error msg :=
  parse_at_uri_malformed "at://a/b".data (Or.inr (by decide))

/-! ## Lemmas about segment scanning -/

theorem takeWhile_noSep (a : List Char) (h : ∀ c ∈ a, c ≠ '/') :
    a.takeWhile (fun c => c ≠ '/') = a := by
  induction a with
  | nil => rfl
  | cons c cs ih =>
    have hc : c ≠ '/' := h c (by simp)
    have ih' := ih (fun x hx => h x (by simp [hx]))
    rw [List.takeWhile_cons, if_pos (decide_eq_true hc), ih']

theorem takeWhile_noSep_append (a r : List Char) (h : ∀ c ∈ a, c ≠ '/') :
    (a ++ '/' :: r).takeWhile (fun c => c ≠ '/') = a := by
  induction a with
  | nil =>
    rw [List.nil_append, List.takeWhile_cons]
    simp
  | cons c cs ih =>
    have hc : c ≠ '/' := h c (by simp)
    have ih' := ih (fun x hx => h x (by simp [hx]))
    rw [List.cons_append, List.takeWhile_cons, if_pos (decide_eq_true hc), ih']

theorem dropWhile_noSep_append (a r : List Char) (h : ∀ c ∈ a, c ≠ '/') :
    (a ++ '/' :: r).dropWhile (fun c => c ≠ '/') = '/' :: r := by
  induction a with
  | nil =>
    rw [List.nil_append, List.dropWhile_cons]
    simp
  | cons c cs ih =>
    have hc : c ≠ '/' := h c (by simp)
    have ih' := ih (fun x hx => h x (by simp [hx]))
    rw [List.cons_append, List.dropWhile_cons, if_pos (decide_eq_true hc), ih']

/-- The regular-expression match on a URL decomposed into its groups: head
literal, a non-empty slash-free group, `/post/`, a non-empty slash-free
group, and an arbitrary tail that cannot extend the second group. -/
theorem matchBskyUrl_decomposed (x y rest : List Char)
    (hx : x ≠ []) (hy : y ≠ []) (hxs : ∀ c ∈ x, c ≠ '/') (hys : ∀ c ∈ y, c ≠ '/')
    (hrest : rest = [] ∨ ∃ r, rest = '/' :: r) :
    matchBskyUrl (bskyUrlHead ++ x ++ postMarker ++ y ++ rest) = some (x, y) := by
  have hxe : x.isEmpty = false := by cases x with
    | nil => exact absurd rfl hx
    | cons c cs => rfl
  have hye : y.isEmpty = false := by cases y with
    | nil => exact absurd rfl hy
    | cons c cs => rfl
  have hpm : postMarker ++ (y ++ rest) = '/' :: ("post/".data ++ (y ++ rest)) := rfl
  unfold matchBskyUrl
  rw [List.append_assoc, List.append_assoc, List.append_assoc]
  rw [if_pos (List.isPrefixOf_iff_prefix.mpr (List.prefix_append _ _))]
  simp only [List.drop_left]
  rw [hpm, takeWhile_noSep_append x _ hxs, dropWhile_noSep_append x _ hxs, ← hpm]
  simp only [hxe, Bool.false_eq_true, if_false]
  rw [if_pos (List.isPrefixOf_iff_prefix.mpr (List.prefix_append _ _))]
  simp only [List.drop_left]
  have hytake : (y ++ rest).takeWhile (fun c => c ≠ '/') = y := by
    rcases hrest with h | ⟨r, h⟩
    · rw [h, List.append_nil, takeWhile_noSep y hys]
    · rw [h, takeWhile_noSep_append y r hys]
  rw [hytake]
  simp only [hye, Bool.false_eq_true, if_false]

/-! ## C1: the URL-to-identifier converter -/

/-- C1: on every URL matching the profile/post pattern — decomposed here as
the literal head, a first group `x`, the `/post/` literal, a second group
`y`, and a tail that cannot extend `y` — `convert_bluesky_url` returns
`at://<actor>/app.bsky.feed.post/<y>`: when `x` starts with `did:` the
actor is `x` itself and the resolver log is empty (identity resolution
never invoked); otherwise the resolver is invoked exactly once, with `x`,
the actor is the identifier it returns, and a failing resolver makes the
conversion fail. -/
theorem convert_bluesky_url_spec (x y rest : List Char)
    (resolve : List Char → Option (List Char))
    (hx : x ≠ []) (hy : y ≠ []) (hxs : ∀ c ∈ x, c ≠ '/') (hys : ∀ c ∈ y, c ≠ '/')
    (hrest : rest = [] ∨ ∃ r, rest = '/' :: r) :
    (didMarker.isPrefixOf x = true →
      convert_bluesky_url (bskyUrlHead ++ x ++ postMarker ++ y ++ rest) resolve
        = .ok (mkAtUri x y, []))
    ∧ (didMarker.isPrefixOf x = false →
      (∀ d, resolve x = some d →
        convert_bluesky_url (bskyUrlHead ++ x ++ postMarker ++ y ++ rest) resolve
          = .ok (mkAtUri d y, [x]))
      ∧ (resolve x = none →
        convert_bluesky_url (bskyUrlHead ++ x ++ postMarker ++ y ++ rest) resolve
          = .error "Error resolving handle")) := by
  have hm := matchBskyUrl_decomposed x y rest hx hy hxs hys hrest
  constructor
  · intro hdid
    unfold convert_bluesky_url
    rw [hm]
    simp [hdid]
  · intro hdid
    constructor
    · intro d hd
      unfold convert_bluesky_url
      rw [hm]
      simp [hdid, hd]
    · intro hd
      unfold convert_bluesky_url
      rw [hm]
      simp [hdid, hd]

/-- Witness for C1, one concrete URL per branch: a literal DID resolves
with an empty log, a handle through a resolver logs exactly one call. -/
theorem convert_bluesky_url_spec_witness :
    convert_bluesky_url
        (bskyUrlHead ++ "did:plc:zz".data ++ postMarker ++ "3k2a".data ++ [])
        (fun _ => none)
      = .ok (mkAtUri "did:plc:zz".data "3k2a".data, [])
    ∧ convert_bluesky_url
        (bskyUrlHead ++ "alice.test".data ++ postMarker ++ "3k2a".data ++ [])
        (fun _ => some "did:plc:abc".data)
      = .ok (mkAtUri "did:plc:abc".data "3k2a".data, ["alice.test".data]) :=
  ⟨(convert_bluesky_url_spec "did:plc:zz".data "3k2a".data [] (fun _ => none)
      (by decide) (by decide) (by decide) (by decide) (Or.inl rfl)).1 (by decide),
   ((convert_bluesky_url_spec "alice.test".data "3k2a".data []
      (fun _ => some "did:plc:abc".data)
      (by decide) (by decide) (by decide) (by decide) (Or.inl rfl)).2
      (by decide)).1 "did:plc:abc".data rfl⟩

/-! ## C9: convert's results parse back -/

theorem matchBskyUrl_groups (url x y : List Char)
    (h : matchBskyUrl url = some (x, y)) :
    (∀ c ∈ x, c ≠ '/') ∧ (∀ c ∈ y, c ≠ '/') := by
  simp only [matchBskyUrl] at h
  split at h
  · split at h
    · exact absurd h (by simp)
    · split at h
      · split at h
        · exact absurd h (by simp)
        · simp only [Option.some.injEq, Prod.mk.injEq] at h
          obtain ⟨hx, hy⟩ := h
          subst hx
          subst hy
          refine ⟨fun c hc => ?_, fun c hc => ?_⟩
          · have hp := List.mem_takeWhile_imp hc
            exact of_decide_eq_true hp
          · have hp := List.mem_takeWhile_imp hc
            exact of_decide_eq_true hp
      · exact absurd h (by simp)
  · exact absurd h (by simp)

theorem mkAtUri_shape (did y : List Char) :
    mkAtUri did y
      = atScheme ++ (did ++ '/' :: ("app.bsky.feed.post".data ++ '/' :: y)) := by
  unfold mkAtUri
  rw [List.append_assoc, List.append_assoc]
  exact rfl

theorem parse_at_uri_append (rest : List Char) :
    parse_at_uri (atScheme ++ rest)
      = if (pySplit '/' rest).length < 3 then .error "AT URI does not have enough parts"
        else .ok ((pySplit '/' rest).getD 0 [], (pySplit '/' rest).getD 2 []) := by
  unfold parse_at_uri
  rw [if_pos (List.isPrefixOf_iff_prefix.mpr (List.prefix_append _ _)), List.drop_left]

theorem parse_at_uri_mkAtUri (did y : List Char) :
    atScheme.isPrefixOf (mkAtUri did y) = true
    ∧ 3 ≤ (pySplit '/' ((mkAtUri did y).drop atScheme.length)).length
    ∧ ∃ did' rkey', parse_at_uri (mkAtUri did y) = .ok (did', rkey') := by
  rw [mkAtUri_shape]
  have hpre : atScheme.isPrefixOf
      (atScheme ++ (did ++ '/' :: ("app.bsky.feed.post".data ++ '/' :: y))) = true :=
    List.isPrefixOf_iff_prefix.mpr (List.prefix_append _ _)
  have hlen : 3 ≤ (pySplit '/'
      (did ++ '/' :: ("app.bsky.feed.post".data ++ '/' :: y))).length := by
    have h1 : 1 + (pySplit '/' ("app.bsky.feed.post".data ++ '/' :: y)).length
        ≤ (pySplit '/' (did ++ '/' :: ("app.bsky.feed.post".data ++ '/' :: y))).length :=
      length_pySplit_append_sep '/' did _
    have h2 : 1 + (pySplit '/' y).length
        ≤ (pySplit '/' ("app.bsky.feed.post".data ++ '/' :: y)).length :=
      length_pySplit_append_sep '/' _ y
    have h3 : 1 ≤ (pySplit '/' y).length := length_pySplit_pos '/' y
    omega
  refine ⟨hpre, ?_, ?_⟩
  · rw [List.drop_left]
    exact hlen
  · rw [parse_at_uri_append, if_neg (by omega)]
    exact ⟨_, _, rfl⟩

/-- C9: whenever `convert_bluesky_url` succeeds, the produced string is a
syntactically valid AT URI — the scheme marker followed by at least three
`/`-delimited segments — so `parse_at_uri` applied to it succeeds; and as
long as the identity-resolution capability returns actor identifiers
containing no `/` (its contract), the parsed pair is exactly the actor
identifier and record key the converter embedded. -/
theorem convert_result_parses (url : List Char)
    (resolve : List Char → Option (List Char)) (uri : List Char)
    (calls : List (List Char))
    (h : convert_bluesky_url url resolve = .ok (uri, calls)) :
    (atScheme.isPrefixOf uri = true
      ∧ 3 ≤ (pySplit '/' (uri.drop atScheme.length)).length
      ∧ ∃ did rkey, parse_at_uri uri = .ok (did, rkey))
    ∧ ((∀ h0 d, resolve h0 = some d → ∀ c ∈ d, c ≠ '/') →
       ∃ did rkey, uri = mkAtUri did rkey ∧ parse_at_uri uri = .ok (did, rkey)) := by
  unfold convert_bluesky_url at h
  cases hm : matchBskyUrl url with
  | none => rw [hm] at h; exact absurd h (by simp)
  | some xy =>
    obtain ⟨x, y⟩ := xy
    rw [hm] at h
    obtain ⟨hxs, hys⟩ := matchBskyUrl_groups url x y hm
    have hcoll : '/' ∉ "app.bsky.feed.post".data := by decide
    by_cases hdid : didMarker.isPrefixOf x = true
    · simp only [hdid, if_true] at h
      simp only [Except.ok.injEq, Prod.mk.injEq] at h
      obtain ⟨huri, _⟩ := h
      subst huri
      refine ⟨parse_at_uri_mkAtUri x y, fun _ => ⟨x, y, rfl, ?_⟩⟩
      rw [mkAtUri_shape]
      exact parse_at_uri_wellFormed x _ y (fun hc => hxs '/' hc rfl) hcoll
        (fun hc => hys '/' hc rfl)
    · simp only [hdid, if_false, Bool.false_eq_true] at h
      cases hr : resolve x with
      | none => rw [hr] at h; exact absurd h (by simp)
      | some d =>
        rw [hr] at h
        simp only [Except.ok.injEq, Prod.mk.injEq] at h
        obtain ⟨huri, _⟩ := h
        subst huri
        refine ⟨parse_at_uri_mkAtUri d y, fun hres => ⟨d, y, rfl, ?_⟩⟩
        have hds : ∀ c ∈ d, c ≠ '/' := hres x d hr
        rw [mkAtUri_shape]
        exact parse_at_uri_wellFormed d _ y (fun hc => hds '/' hc rfl) hcoll
          (fun hc => hys '/' hc rfl)

/-- Witness for C9 at a concrete handle URL and a concrete resolver. -/
theorem convert_result_parses_witness :
    ∃ did rkey,
      parse_at_uri (mkAtUri "did:plc:w".data "k1".data) = .ok (did, rkey) :=
  ((convert_result_parses
      (bskyUrlHead ++ "bob.test".data ++ postMarker ++ "k1".data)
      (fun _ => some "did:plc:w".data)
      (mkAtUri "did:plc:w".data "k1".data) ["bob.test".data] rfl).1).2.2

/-! ## C4: text extraction tries the spec's key paths in order -/

theorem jget_of_not_obj (v : JVal) (h : v.isObj = false) (k : String) :
    jget v k = none := by
  cases v <;> simp_all [JVal.isObj, jget]

theorem jgetPath_cons (rv : JVal) (k : String) (ps : List String) :
    jgetPath rv (k :: ps)
      = match jget rv k with
        | some w => jgetPath w ps
        | none => none := rfl

theorem tryPath_single (rv : JVal) (k : String) :
    tryPath rv [k] = truthyGet rv k := by
  unfold tryPath truthyGet
  rw [jgetPath_cons]
  cases h : jget rv k with
  | none => rfl
  | some w => rfl

theorem tryPath_cons (rv : JVal) (k : String) (ps : List String) :
    tryPath rv (k :: ps)
      = match jget rv k with
        | some w => tryPath w ps
        | none => none := by
  unfold tryPath
  rw [jgetPath_cons]
  cases h : jget rv k with
  | none => rfl
  | some w => rfl

theorem val_pair_eq (w : JVal) :
    jor (tryPath w ["text"]) (tryPath w ["content"])
      = if w.isObj then jor (truthyGet w "text") (truthyGet w "content")
        else none := by
  rw [tryPath_single, tryPath_single]
  cases ho : w.isObj with
  | true => rw [if_pos rfl]
  | false =>
    rw [if_neg (by simp)]
    simp [truthyGet, jget_of_not_obj w ho, jor]

theorem keyed_val_chain (v : JVal) (k : String) :
    jor (tryPath v [k, "text"]) (tryPath v [k, "content"])
      = match jget v k with
        | some val =>
          if val.isObj then jor (truthyGet val "text") (truthyGet val "content")
          else none
        | none => none := by
  rw [tryPath_cons v k ["text"], tryPath_cons v k ["content"]]
  cases hv : jget v k with
  | none => rfl
  | some val => exact val_pair_eq val

theorem rec_chain_eq (rv : JVal) :
    jor (tryPath rv ["record", "text"])
      (jor (tryPath rv ["record", "value", "text"])
        (tryPath rv ["record", "value", "content"]))
      = match jget rv "record" with
        | some rec =>
          if rec.isObj then
            jor (truthyGet rec "text")
              (match jget rec "value" with
               | some val =>
                 if val.isObj then jor (truthyGet val "text") (truthyGet val "content")
                 else none
               | none => none)
          else none
        | none => none := by
  rw [tryPath_cons rv "record" ["text"],
    tryPath_cons rv "record" ["value", "text"],
    tryPath_cons rv "record" ["value", "content"]]
  cases hr : jget rv "record" with
  | none => simp [jor]
  | some rec =>
    dsimp only
    rw [← keyed_val_chain rec "value"]
    cases ho : rec.isObj with
    | false =>
      rw [if_neg (by simp)]
      rw [tryPath_single]
      simp [truthyGet, jget_of_not_obj rec ho, jor,
        tryPath_cons rec "value" ["text"],
        tryPath_cons rec "value" ["content"]]
    | true =>
      rw [if_pos rfl, tryPath_single]

theorem spec_extract_text_eq (rv : JVal) :
    spec_extract_text rv
      = match jor (tryPath rv ["text"])
            (jor (jor (tryPath rv ["record", "text"])
                (jor (tryPath rv ["record", "value", "text"])
                  (tryPath rv ["record", "value", "content"])))
              (jor (tryPath rv ["value", "text"]) (tryPath rv ["value", "content"]))) with
        | some t => t
        | none => .str "No text content" := by
  simp only [spec_extract_text, spec_text_paths, List.filterMap_cons, List.filterMap_nil]
  cases h1 : tryPath rv ["text"] with
  | some v => simp [jor]
  | none =>
    cases h2 : tryPath rv ["record", "text"] with
    | some v => simp [jor]
    | none =>
      cases h3 : tryPath rv ["record", "value", "text"] with
      | some v => simp [jor]
      | none =>
        cases h4 : tryPath rv ["record", "value", "content"] with
        | some v => simp [jor]
        | none =>
          cases h5 : tryPath rv ["value", "text"] with
          | some v => simp [jor]
          | none =>
            cases h6 : tryPath rv ["value", "content"] with
            | some v => simp [jor]
            | none => simp [jor]

theorem extract_text_eq_spec (rv : JVal) :
    extract_text_from_record rv = spec_extract_text rv := by
  rw [spec_extract_text_eq rv]
  simp only [extract_text_from_record]
  rw [tryPath_single, rec_chain_eq, keyed_val_chain]

theorem tryPath_truthy (rv : JVal) (p : List String) (t : JVal)
    (h : tryPath rv p = some t) : pyTruthy t = true := by
  unfold tryPath at h
  cases hg : jgetPath rv p with
  | none => simp [hg] at h
  | some v =>
    simp only [hg] at h
    by_cases hv : pyTruthy v = true
    · rw [if_pos hv] at h
      injection h with h'
      rw [← h']
      exact hv
    · rw [if_neg hv] at h
      exact absurd h (by simp)

/-- C4: `extract_text_from_record` coincides, on every payload, with the
specification's prioritized key-path lookup (top-level `text`, then
`record.text`, `record.value.text`, `record.value.content`, then
`value.text`, `value.content`; first non-empty match wins, else the
sentinel). In particular a payload whose only recognized field is
`value.content = "hello"` yields `"hello"`; a payload with no non-empty
recognized key yields the sentinel; and the result is either the sentinel
or a non-empty (truthy) value — never an empty string presented as found
text. Being a total function, it raises nothing. -/
theorem extract_text_spec_order :
    (∀ rv, extract_text_from_record rv = spec_extract_text rv)
    ∧ extract_text_from_record
        (.obj [("value", .obj [("content", .str "hello")])]) = .str "hello"
    ∧ extract_text_from_record
        (.obj [("createdAt", .str "now"), ("text", .str "")])
        = .str "No text content"
    ∧ (∀ rv, extract_text_from_record rv = .str "No text content"
        ∨ pyTruthy (extract_text_from_record rv) = true) := by
  refine ⟨extract_text_eq_spec, rfl, rfl, fun rv => ?_⟩
  rw [extract_text_eq_spec]
  unfold spec_extract_text
  cases hfm : spec_text_paths.filterMap (tryPath rv) with
  | nil => exact Or.inl rfl
  | cons t rest =>
    refine Or.inr ?_
    have ht : t ∈ spec_text_paths.filterMap (tryPath rv) := by
      rw [hfm]; exact List.mem_cons_self t rest
    rw [List.mem_filterMap] at ht
    obtain ⟨p, _, hp⟩ := ht
    exact tryPath_truthy rv p t hp

/-! ## C10: non-mapping payloads are silently handled -/

/-- C10: on every value that is not a mapping (None, bool, number, string,
list), `extract_text_from_record` returns the sentinel and
`extract_images_from_record` returns the empty list; both are total, so
neither raises. -/
theorem extractors_non_mapping (v : JVal) (h : v.isObj = false) :
    extract_text_from_record v = .str "No text content"
    ∧ extract_images_from_record v = .ok [] := by
  cases v with
  | null => exact ⟨rfl, rfl⟩
  | bool b => exact ⟨rfl, rfl⟩
  | num n => exact ⟨rfl, rfl⟩
  | str s => exact ⟨rfl, rfl⟩
  | arr l => exact ⟨rfl, rfl⟩
  | obj kvs => simp [JVal.isObj] at h

/-- Witness for C10 at the Python value `None`. -/
theorem extractors_non_mapping_witness :
    extract_text_from_record .null = .str "No text content"
    ∧ extract_images_from_record .null = .ok [] :=
  extractors_non_mapping .null rfl

/-! ## C6: reply-link extraction -/

/-- C6: reply links come from the top-level `reply` mapping or, failing
that, from `record.reply`; `parent.uri` and `root.uri` are extracted
independently, so either may be present without the other. On the payload
holding `parent.uri = A` and `root.uri = B` the result is
`(some A, some B)`; on the empty mapping it is `(none, none)`. -/
theorem extract_reply_links_spec :
    (∀ p r : JVal,
      extract_reply_links (.obj [("reply", .obj [("parent", .obj [("uri", p)]),
          ("root", .obj [("uri", r)])])])
        = (some p, some r))
    ∧ extract_reply_links (.obj []) = (none, none)
    ∧ (∀ p : JVal,
      extract_reply_links (.obj [("record", .obj [("reply",
          .obj [("parent", .obj [("uri", p)])])])])
        = (some p, none))
    ∧ (∀ r : JVal,
      extract_reply_links (.obj [("reply", .obj [("root", .obj [("uri", r)])])])
        = (none, some r))
    ∧ extract_reply_links (.obj [("reply", .obj [("parent", .obj [("uri", .str "A")]),
          ("root", .obj [("uri", .str "B")])])])
        = (some (.str "A"), some (.str "B")) :=
  ⟨fun _ _ => rfl, rfl, fun _ => rfl, fun _ => rfl, rfl⟩

/-! ## C5: image extraction -/

theorem processEmbedImg_listed (v : JVal) (r : Option ImageEntry)
    (h : processEmbedImg v = .ok r) : r.isSome = embedImgListed v := by
  cases v with
  | obj kvs =>
    unfold processEmbedImg at h
    cases hf : jget (.obj kvs) "image" with
    | none =>
      simp only [hf] at h
      simp only [Except.ok.injEq] at h
      simp [embedImgListed, hf, ← h]
    | some f =>
      simp only [hf] at h
      cases hr : jget f "ref" with
      | none =>
        simp only [hr, Except.ok.injEq] at h
        simp [embedImgListed, hf, hr, ← h]
      | some ir =>
        simp only [hr, Except.ok.injEq] at h
        simp [embedImgListed, hf, hr, ← h]
  | null => simp [processEmbedImg] at h
  | bool b => simp [processEmbedImg] at h
  | num n => simp [processEmbedImg] at h
  | str s => simp [processEmbedImg] at h
  | arr l => simp [processEmbedImg] at h

theorem processMediaItem_listed (v : JVal) (r : Option ImageEntry)
    (h : processMediaItem v = .ok r) : r.isSome = mediaItemListed v := by
  cases v with
  | obj kvs =>
    unfold processMediaItem at h
    dsimp only at h
    by_cases hc : ((match jget (.obj kvs) "type" with
        | some (.str s) => s = "image" | _ => false)
        && pyTruthy ((jget (.obj kvs) "url").getD .null)) = true
    · rw [if_pos hc] at h
      simp only [Except.ok.injEq] at h
      simp [mediaItemListed, hc, ← h]
    · rw [if_neg hc] at h
      simp only [Except.ok.injEq] at h
      simp [mediaItemListed, hc, ← h]
  | null => simp [processMediaItem] at h
  | bool b => simp [processMediaItem] at h
  | num n => simp [processMediaItem] at h
  | str s => simp [processMediaItem] at h
  | arr l => simp [processMediaItem] at h

theorem collectEntries_length (f : JVal → Except String (Option ImageEntry))
    (p : JVal → Bool)
    (hf : ∀ v r, f v = .ok r → r.isSome = p v) :
    ∀ l es, collectEntries f l = .ok es → es.length = l.countP p := by
  intro l
  induction l with
  | nil =>
    intro es h
    simp only [collectEntries, Except.ok.injEq] at h
    simp [← h]
  | cons v rest ih =>
    intro es h
    unfold collectEntries at h
    cases hv : f v with
    | error e => rw [hv] at h; exact absurd h (by simp)
    | ok r =>
      rw [hv] at h
      cases hrest : collectEntries f rest with
      | error e => rw [hrest] at h; exact absurd h (by simp)
      | ok rs =>
        rw [hrest] at h
        have hlen := ih rs hrest
        have hps := hf v r hv
        cases r with
        | some entry =>
          simp only [Except.ok.injEq] at h
          rw [← h]
          simp only [Option.isSome_some] at hps
          simp [List.countP_cons, ← hps, hlen]
        | none =>
          simp only [Except.ok.injEq] at h
          rw [← h]
          simp only [Option.isSome_none] at hps
          simp [List.countP_cons, ← hps, hlen]

theorem embedPartOf_length (rv : JVal) (es : List ImageEntry)
    (h : embedPartOf rv = .ok es) :
    es.length = (embedImagesOf rv).countP embedImgListed := by
  unfold embedPartOf at h
  cases he : jget rv "embed" with
  | none =>
    rw [he] at h
    simp only [Except.ok.injEq] at h
    simp [← h, embedImagesOf, he]
  | some embed =>
    rw [he] at h
    dsimp only at h
    cases hi : jget embed "images" with
    | none =>
      rw [hi] at h
      simp only [Except.ok.injEq] at h
      simp [← h, embedImagesOf, he, hi]
    | some v =>
      rw [hi] at h
      cases v with
      | arr imgs =>
        have := collectEntries_length processEmbedImg embedImgListed
          processEmbedImg_listed imgs es h
        simp [this, embedImagesOf, he, hi]
      | null => exact absurd h (by simp)
      | bool b => exact absurd h (by simp)
      | num n => exact absurd h (by simp)
      | str s => exact absurd h (by simp)
      | obj kvs2 => exact absurd h (by simp)

theorem mediaPartOf_length (rv : JVal) (ms : List ImageEntry)
    (h : mediaPartOf rv = .ok ms) :
    ms.length = (mediaOf rv).countP mediaItemListed := by
  unfold mediaPartOf at h
  cases hm : jget rv "media" with
  | none =>
    rw [hm] at h
    simp only [Except.ok.injEq] at h
    simp [← h, mediaOf, hm]
  | some v =>
    rw [hm] at h
    cases v with
    | arr l =>
      have := collectEntries_length processMediaItem mediaItemListed
        processMediaItem_listed l ms h
      simp [this, mediaOf, hm]
    | null =>
      simp only [Except.ok.injEq] at h
      simp [← h, mediaOf, hm]
    | bool b =>
      simp only [Except.ok.injEq] at h
      simp [← h, mediaOf, hm]
    | num n =>
      simp only [Except.ok.injEq] at h
      simp [← h, mediaOf, hm]
    | str s =>
      simp only [Except.ok.injEq] at h
      simp [← h, mediaOf, hm]
    | obj kvs2 =>
      simp only [Except.ok.injEq] at h
      simp [← h, mediaOf, hm]

/-- Counterexample to C5 as stated: the payload `mediaNoUrlPayload` carries
exactly one attachment — a `media[]` element typed `image` (with an alt
text but no `url`) — yet the extractor reports no attachments at all: the
element is silently dropped instead of being listed with its reference
marked absent. -/
theorem extract_images_drops_attachment :
    extract_images_from_record mediaNoUrlPayload = .ok []
    ∧ jget mediaNoUrlPayload "media"
        = some (.arr [.obj [("type", .str "image"), ("alt", .str "pic")]]) :=
  ⟨rfl, rfl⟩

/-- C5 amended: image extraction checks both shapes and concatenates their
results, but only qualifying elements are listed: from `embed.images[]`
exactly those carrying an `image` mapping that holds a `ref` key (such an
element whose `ref` cannot be resolved to a `$link` is still listed, with
its reference marked absent), and from `media[]` exactly those with type
`image` and a present truthy `url`; other elements are dropped, so the
number of attachments reported is the number of qualifying elements, not
the number present. -/
theorem extract_images_amended :
    (∀ rv l, extract_images_from_record rv = .ok l →
      l.length = (embedImagesOf rv).countP embedImgListed
               + (mediaOf rv).countP mediaItemListed)
    ∧ extract_images_from_record
        (.obj [("embed", .obj [("images", .arr [.obj [("alt", .str "a"),
          ("image", .obj [("ref", .str "opaque")])]])])])
      = .ok [{ alt := .str "a", ref := none }] := by
  refine ⟨fun rv l h => ?_, rfl⟩
  cases rv with
  | obj kvs =>
    unfold extract_images_from_record at h
    cases hE : embedPartOf (.obj kvs) with
    | error e => rw [hE] at h; exact absurd h (by simp)
    | ok es =>
      rw [hE] at h
      cases hM : mediaPartOf (.obj kvs) with
      | error e => rw [hM] at h; exact absurd h (by simp)
      | ok ms =>
        rw [hM] at h
        simp only [Except.ok.injEq] at h
        rw [← h, List.length_append,
          embedPartOf_length (.obj kvs) es hE,
          mediaPartOf_length (.obj kvs) ms hM]
  | null => simp only [extract_images_from_record, Except.ok.injEq] at h
            simp [← h, embedImagesOf, mediaOf, jget]
  | bool b => simp only [extract_images_from_record, Except.ok.injEq] at h
              simp [← h, embedImagesOf, mediaOf, jget]
  | num n => simp only [extract_images_from_record, Except.ok.injEq] at h
             simp [← h, embedImagesOf, mediaOf, jget]
  | str s => simp only [extract_images_from_record, Except.ok.injEq] at h
             simp [← h, embedImagesOf, mediaOf, jget]
  | arr l2 => simp only [extract_images_from_record, Except.ok.injEq] at h
              simp [← h, embedImagesOf, mediaOf, jget]

/-- Witness for the amended C5 at a payload with one qualifying attachment
in each shape: two entries are reported, matching the two counts. -/
theorem extract_images_amended_witness :
    ([{ alt := .str "a", ref := none },
      { alt := .str "No description", ref := some (.str "u") }] : List ImageEntry).length
      = (embedImagesOf imagesBothShapes).countP embedImgListed
      + (mediaOf imagesBothShapes).countP mediaItemListed :=
  extract_images_amended.1 imagesBothShapes
    [{ alt := .str "a", ref := none },
     { alt := .str "No description", ref := some (.str "u") }] rfl

/-! ## C7 and C8: the interactive loop -/

theorem process_post_fetch_failure (env : Env) (s did rkey : List Char)
    (hparse : parse_at_uri s = .ok (did, rkey))
    (hrec : env.getRecord did rkey = none) :
    process_post env (.str (String.mk s)) = .ok (none, none, none) := by
  unfold process_post parse_at_uriJ
  dsimp only
  rw [hparse]
  dsimp only
  rw [hrec]

/-- Counterexample to C7 as stated: starting from a state that knows a
parent, a root and a replies response, the command `p` under an
environment whose record fetch fails is an error "recovered" by the loop —
it reports and re-prompts — but the previously known navigation state is
not left unchanged: `process_post` returns `(None, None, None)` and the
assignment erases all three stored values. -/
theorem loop_fetch_failure_erases_state :
    mainLoopStep failingEnv knownNavState ['p'] []
      = .cont { at_uri := knownNavState.at_uri, replies_resp := none,
                parent_uri := none, root_uri := none }
    ∧ knownNavState.parent_uri
        = some (.str "at://did:plc:p/app.bsky.feed.post/3")
    ∧ (some (.str "at://did:plc:p/app.bsky.feed.post/3") : Option JVal) ≠ none := by
  refine ⟨rfl, rfl, ?_⟩
  simp

theorem mainLoopStep_cont (env : Env) (st : LoopState)
    (choice s : List Char) (h : choice ≠ ['q']) :
    ∃ st2, mainLoopStep env st choice s = .cont st2 := by
  unfold mainLoopStep
  rw [if_neg h]
  repeat' (first | split | dsimp only)
  all_goals exact ⟨_, rfl⟩

theorem process_post_resolve_irrel (env : Env)
    (resolve2 : List Char → Option (List Char)) (u : JVal) :
    process_post { env with resolve := resolve2 } u = process_post env u := rfl

/-- C7 amended: every error inside the interactive loop is caught and the
loop re-prompts — no command other than `q` ever quits it. An input at the
`n` prompt that is neither an AT URI nor a matching web URL, and a web URL
whose conversion fails, leave every loop variable unchanged. A record
fetch failure, however, does not leave the navigation state unchanged: the
`(None, None, None)` return of `process_post` is assigned over it, so the
stored replies response, parent URI and root URI are reset to `None`. -/
theorem interactive_loop_error_handling :
    (∀ env st s, is_at_uri s = false → is_bluesky_url s = false →
      mainLoopStep env st ['n'] s = .cont st)
    ∧ (∀ env st s e, is_at_uri s = false →
        convert_bluesky_url s env.resolve = .error e →
        mainLoopStep env st ['n'] s = .cont st)
    ∧ (∀ env st s did rkey, is_at_uri s = true →
        parse_at_uri s = .ok (did, rkey) → env.getRecord did rkey = none →
        mainLoopStep env st ['n'] s
          = .cont { at_uri := .str (String.mk s), replies_resp := none,
                    parent_uri := none, root_uri := none })
    ∧ (∀ env st choice s, choice ≠ ['q'] →
        mainLoopStep env st choice s ≠ .quit) := by
  refine ⟨fun env st s h1 h2 => ?_, fun env st s e h1 h2 => ?_,
    fun env st s did rkey h1 h2 h3 => ?_, fun env st choice s h => ?_⟩
  · simp [mainLoopStep, h1, h2]
  · cases hb : is_bluesky_url s with
    | false => simp [mainLoopStep, h1, hb]
    | true => simp [mainLoopStep, h1, hb, h2]
  · have hp := process_post_fetch_failure env s did rkey h2 h3
    simp [mainLoopStep, h1, hp]
  · intro hq
    obtain ⟨st2, hst⟩ := mainLoopStep_cont env st choice s h
    rw [hst] at hq
    exact StepResult.noConfusion hq

/-- Witness for the amended C7: the fetch-failure reset at concrete
inputs. -/
theorem interactive_loop_error_handling_witness :
    mainLoopStep failingEnv knownNavState ['n']
        "at://d/app.bsky.feed.post/k".data
      = .cont { at_uri := .str (String.mk "at://d/app.bsky.feed.post/k".data),
                replies_resp := none, parent_uri := none, root_uri := none } :=
  interactive_loop_error_handling.2.2.1 failingEnv knownNavState
    "at://d/app.bsky.feed.post/k".data "d".data "k".data rfl rfl rfl

/-- C8: an input at the `n` prompt that already is an AT URI bypasses
conversion — the step is unchanged under any replacement of the resolver —
and the entered string is used verbatim: it becomes the current URI and
`process_post` receives exactly it; when the fetch pipeline returns a
triple, the new loop state holds the entered string and that triple. -/
theorem at_uri_input_verbatim (env : Env)
    (resolve2 : List Char → Option (List Char)) (st : LoopState)
    (s : List Char) (h : is_at_uri s = true) :
    mainLoopStep { env with resolve := resolve2 } st ['n'] s
      = mainLoopStep env st ['n'] s
    ∧ (∀ rr p r, process_post env (.str (String.mk s)) = .ok (rr, p, r) →
        mainLoopStep env st ['n'] s
          = .cont { at_uri := .str (String.mk s), replies_resp := rr,
                    parent_uri := p, root_uri := r }) := by
  constructor
  · simp [mainLoopStep, h, process_post_resolve_irrel]
  · intro rr p r hp
    simp [mainLoopStep, h, hp]

/-- Witness for C8: a concrete AT URI entered at the prompt, under an
environment whose fetch succeeds with a plain text post. -/
theorem at_uri_input_verbatim_witness :
    mainLoopStep textPostEnv knownNavState ['n']
        "at://d/app.bsky.feed.post/k".data
      = .cont { at_uri := .str (String.mk "at://d/app.bsky.feed.post/k".data),
                replies_resp := none, parent_uri := none, root_uri := none } :=
  (at_uri_input_verbatim textPostEnv (fun _ => none) knownNavState
      "at://d/app.bsky.feed.post/k".data rfl).2 none none none rfl

end ATProto
